import Mathlib

/-!
# ZotLink extraction/normalization pipeline — verification development

Shallow embedding of the metadata-normalization pipeline of the ZotLink
repository and proofs about it:

* `patched_convert_to_zotero_format` from `debug_tools/trace_url.py`
  (the Metadata Normalizer / Creator List Builder of the spec),
* the presentation-layer title resolution of `zotlink/legacy/mcp_server.py`,
* `BioRxivDirectExtractor` from `zotlink/extractors/biorxiv_direct_extractor.py`,
* the extractor dispatcher and the free-text author parser, which are not
  present in the available sources and are modelled from the specification.

Python dictionaries are modelled as association lists `List (String × Value)`
so that key presence/omission is observable.  Python truthiness on strings
collapses `None`, the missing key and `""`; accordingly string-valued inputs
that the code only reads through `.get(k, '')` or truthiness tests are
modelled as plain `String`s with `""` for "absent".  The character classes
`\d`, `\w`, `\s` of Python's `re` are modelled on their ASCII range, which
covers every string the code's month table and date formats can act on.
-/

/-- One author entry, `{"creatorType": ..., "firstName": ..., "lastName": ...}`. -/
structure Creator where
  creatorType : String
  firstName : String
  lastName : String
deriving DecidableEq, Repr

/-- A Python dict value as it occurs in the records of this pipeline. -/
inductive Value where
  | str (s : String)
  | creators (l : List Creator)
  | bytes (b : List Nat)
  | nat (n : Nat)
deriving DecidableEq, Repr

/-- Python truthiness test (`if v:`) on a record value, negated:
`isFalsy v = true` iff Python would treat `v` as falsy. -/
def Value.isFalsy : Value → Bool
  | .str s => s == ""
  | .creators l => l.isEmpty
  | .bytes b => b.isEmpty
  | .nat n => n == 0

/-- The `paper_info` input of `_convert_to_zotero_format`
(the spec's `RawExtractionResult`).  String fields use `""` for an
absent/falsy entry; `itemType` and `error` keep their key-presence
distinction because the code reads them through `.get` with a default
resp. `'error' in metadata`. -/
structure PaperInfo where
  title : String := ""
  authors : String := ""
  creators : List Creator := []
  date : String := ""
  itemType : Option String := none
  url : String := ""
  abstractNote : String := ""
  abstract : String := ""
  DOI : String := ""
  repository : String := ""
  libraryCatalog : String := ""
  error : Option String := none
deriving DecidableEq, Repr

/-- Whether `pat` is a prefix of `l` (helper for the substring test). -/
def prefixOfList : List Char → List Char → Bool
  | [], _ => true
  | _ :: _, [] => false
  | p :: ps, c :: cs => p == c && prefixOfList ps cs

/-- Scan for an occurrence of `pat` at any position of `l`. -/
def containsSubAux (pat : List Char) : List Char → Bool
  | [] => prefixOfList pat []
  | c :: rest => prefixOfList pat (c :: rest) || containsSubAux pat rest

/-- Python `pat in s` substring test. -/
def containsSub (s pat : String) : Bool := containsSubAux pat.data s.data

/-- `l` with `pat` removed from its front, if `pat` is a prefix of `l`
(helper for separator splitting). -/
def dropPrefixQ : List Char → List Char → Option (List Char)
  | [], l => some l
  | _ :: _, [] => none
  | p :: ps, c :: cs => if p == c then dropPrefixQ ps cs else none

/-- Fuelled worker for `splitOnL`; with `fuel ≥ l.length` and a non-empty
separator this computes Python's `s.split(sep)` over char lists. -/
def splitOnAuxL (pat : List Char) : Nat → List Char → List Char → List String
  | _, [], acc => [String.mk acc.reverse]
  | 0, l, acc => [String.mk (acc.reverse ++ l)]
  | fuel + 1, c :: rest, acc =>
    match dropPrefixQ pat (c :: rest) with
    | some rem => String.mk acc.reverse :: splitOnAuxL pat fuel rem []
    | none => splitOnAuxL pat fuel rest (c :: acc)

/-- Python `s.split(pat)` for a non-empty literal separator `pat`. -/
def splitOnL (s pat : String) : List String :=
  if pat.data = [] then [s] else splitOnAuxL pat.data s.data.length s.data []

/-! ## Python regex machinery used by the date normalizer

`patched_convert_to_zotero_format` uses three patterns:
`(\d{1,2})\s+(\w+)\s+(\d{4})`, `(\d{4})[dash-or-slash](\d{1,2})[dash-or-slash](\d{1,2})`
(both via `re.search`) and `^\d{4}$`.  They are embedded as scanning
functions over `List Char`.  The character classes are taken on their
ASCII range. -/

/-- ASCII range of Python's `\s`. -/
def isPySpace (c : Char) : Bool :=
  c == ' ' || c == '\t' || c == '\n' || c == '\r' || c == '\x0b' || c == '\x0c'

/-- ASCII range of Python's `\d`. -/
def isPyDigit (c : Char) : Bool := c.isDigit

/-- ASCII range of Python's `\w`. -/
def isPyWord (c : Char) : Bool := c.isAlphanum || c == '_'

/-- Matcher for the suffix `\s+(\w+)\s+(\d{4})` of the first date pattern.
Since `\s`, `\w`, `\d` are pairwise disjoint character classes and `\d{4}`
has fixed width, the backtracking of Python's greedy quantifiers can never
succeed after giving characters back, so each quantifier takes its maximal
run. Returns the `\w+` and `\d{4}` groups. -/
def matchTailDMY (l : List Char) : Option (List Char × List Char) :=
  let sp1 := l.takeWhile isPySpace
  let r1 := l.dropWhile isPySpace
  if sp1.isEmpty then none else
  let w := r1.takeWhile isPyWord
  let r2 := r1.dropWhile isPyWord
  if w.isEmpty then none else
  let sp2 := r2.takeWhile isPySpace
  let r3 := r2.dropWhile isPySpace
  if sp2.isEmpty then none else
  match r3 with
  | a :: b :: c :: d :: _ =>
    if isPyDigit a && isPyDigit b && isPyDigit c && isPyDigit d then
      some (w, [a, b, c, d])
    else none
  | _ => none

/-- `re.search(r'(\d{1,2})\s+(\w+)\s+(\d{4})', s)`: try each start position
left to right.  At a start with two digits, the one-digit alternative of
`\d{1,2}` is never viable (the second digit cannot match `\s`), so greedy
two-digit capture is exact. Returns the groups `(day, month-name, year)`. -/
def searchDMYAux : List Char → Option (List Char × List Char × List Char)
  | [] => none
  | c :: rest =>
    (match
      (if isPyDigit c then
        match rest with
        | c2 :: rest2 =>
          if isPyDigit c2 then
            (matchTailDMY rest2).map (fun p => ([c, c2], p.1, p.2))
          else
            (matchTailDMY rest).map (fun p => ([c], p.1, p.2))
        | [] => none
      else none) with
    | some r => some r
    | none => searchDMYAux rest)

/-- A `[dash-or-slash]` separator character. -/
def sepChar (c : Char) : Bool := c == '-' || c == '/'

/-- Match of `(\d{4})[dash-or-slash](\d{1,2})[dash-or-slash](\d{1,2})` anchored at the head of the
list.  For the middle `\d{1,2}`: after a greedy two-digit capture fails to
find a separator, the one-digit alternative would need the second digit to
match `[dash-or-slash]`, which is impossible, so no backtracking case remains. -/
def matchISOAt : List Char → Bool
  | a :: b :: c :: d :: s1 :: rest =>
    isPyDigit a && isPyDigit b && isPyDigit c && isPyDigit d && sepChar s1 &&
    (match rest with
     | m1 :: m2 :: r2 =>
       if isPyDigit m1 && isPyDigit m2 then
         (match r2 with
          | s2 :: r3 =>
            sepChar s2 && (match r3 with | e :: _ => isPyDigit e | [] => false)
          | [] => false)
       else
         isPyDigit m1 && sepChar m2 &&
           (match r2 with | e :: _ => isPyDigit e | [] => false)
     | _ => false)
  | _ => false

/-- `re.search(r'(\d{4})[dash-or-slash](\d{1,2})[dash-or-slash](\d{1,2})', s)` as a Boolean
(the code only tests whether it matched). -/
def searchISOAux : List Char → Bool
  | [] => false
  | c :: rest => matchISOAt (c :: rest) || searchISOAux rest

/-- `re.search(r'^\d{4}$', s)`: exactly four digits, where Python's `$`
also matches just before one final newline. -/
def fourDigitsAnchored : List Char → Bool
  | [a, b, c, d] => isPyDigit a && isPyDigit b && isPyDigit c && isPyDigit d
  | [a, b, c, d, n] =>
    isPyDigit a && isPyDigit b && isPyDigit c && isPyDigit d && n == '\n'
  | _ => false

/-- The `months` dict of `patched_convert_to_zotero_format` (trace_url.py
lines 81–85): capitalized three-letter abbreviations, exact keys. -/
def monthsTable : List (String × String) :=
  [("Jan", "01"), ("Feb", "02"), ("Mar", "03"), ("Apr", "04"),
   ("May", "05"), ("Jun", "06"), ("Jul", "07"), ("Aug", "08"),
   ("Sep", "09"), ("Oct", "10"), ("Nov", "11"), ("Dec", "12")]

/-- `months.get(month_name[:3], '01')` — case-sensitive lookup of the first
three characters of the matched month name, defaulting to `'01'`. -/
def monthLookup (name : List Char) : String :=
  (monthsTable.lookup (String.mk (name.take 3))).getD "01"

/-- Python `day.zfill(2)` for an unsigned digit string. -/
def zfill2 (s : String) : String :=
  String.mk (List.replicate (2 - s.length) '0') ++ s

/-- Date normalization of `patched_convert_to_zotero_format`
(trace_url.py lines 75–93).  The `try/except: pass` wrapper is dead in this
model because every operation is total. -/
def normalizeDate (date : String) : String :=
  if date ≠ "" ∧ date ≠ "未知日期" then
    match searchDMYAux date.data with
    | some (day, monthName, year) =>
        String.mk year ++ "-" ++ monthLookup monthName ++ "-" ++ zfill2 (String.mk day)
    | none =>
        if searchISOAux date.data then date
        else if fourDigitsAnchored date.data then date ++ "-01-01"
        else date
  else date

/-- `'arxiv.org' in paper_info.get('url', '')` followed by the
`itemType` default of trace_url.py lines 96–98. -/
def itemTypeOf (p : PaperInfo) : String :=
  if containsSub p.url "arxiv.org" then "preprint" else p.itemType.getD "journalArticle"

/-- The `zotero_item` dict built by `patched_convert_to_zotero_format`
(trace_url.py lines 100–121) for a given creator list: the full field set in
insertion order, with every falsy value stripped by the final
`{k: v for k, v in zotero_item.items() if v}`.  The conditional insertion of
`DOI`/`repository`/`libraryCatalog` is folded into the filter, which leaves
the same keys in the same order. -/
def buildRecord (today : String) (p : PaperInfo) (cs : List Creator) :
    List (String × Value) :=
  List.filter (fun kv => !kv.2.isFalsy)
    [("itemType", Value.str (itemTypeOf p)),
     ("title", Value.str p.title),
     ("creators", Value.creators cs),
     ("abstractNote", Value.str (if p.abstractNote ≠ "" then p.abstractNote else p.abstract)),
     ("url", Value.str p.url),
     ("date", Value.str (normalizeDate p.date)),
     ("DOI", Value.str p.DOI),
     ("repository", Value.str p.repository),
     ("libraryCatalog", Value.str p.libraryCatalog),
     ("accessDate", Value.str today)]

/-- Worker for `splitWords`: cut a char list at whitespace characters. -/
def splitWordsAux : List Char → List Char → List String
  | [], acc => [String.mk acc.reverse]
  | c :: rest, acc =>
    if isPySpace c then String.mk acc.reverse :: splitWordsAux rest []
    else splitWordsAux rest (c :: acc)

/-- Modelled from the spec: name-token splitting of the Creator List
Builder (§4.3 Branch B), whose implementation
(`ZoteroConnector._convert_to_zotero_format` in `zotero_integration.py`) is
not among the available sources — trim whitespace and split into words,
Python `t.split()` style (empty pieces discarded). -/
def splitWords (t : String) : List String :=
  (splitWordsAux t.data []).filter (fun w => w ≠ "")

/-- Modelled from the spec: one name token of the Creator List Builder
(§4.3 Branch B): one word is a bare `lastName`; with two or more words the
last word is `lastName` and the preceding words joined by spaces are
`firstName`; an empty token is discarded. -/
def parseName (t : String) : Option Creator :=
  match splitWords t with
  | [] => none
  | [w] => some ⟨"author", "", w⟩
  | w :: ws => some ⟨"author", String.intercalate " " ((w :: ws).dropLast),
      (w :: ws).getLast (by simp)⟩

/-- Modelled from the spec: separator splitting of the Creator List Builder
(§4.3 Branch B): split on `;` if present, otherwise on `,` with the literal
word `and` and `&` as additional separators. -/
def splitAuthors (s : String) : List String :=
  if containsSub s ";" then splitOnL s ";"
  else ((splitOnL s ",").flatMap (fun t =>
    (splitOnL t " and ").flatMap (fun u => splitOnL u "&")))

/-- Modelled from the spec: free-text author parsing of the Creator List
Builder (§4.3 Branch B). -/
def parseAuthors (s : String) : List Creator :=
  (splitAuthors s).filterMap parseName

/-- Modelled from the spec: `build_creators` (§4.3) — Branch A uses a
non-empty structured `creators` list directly with the 15-entry cap,
Branch B parses the free-text `authors` string with the same cap,
Branch C returns the empty list. -/
def buildCreators (p : PaperInfo) : List Creator :=
  if p.creators ≠ [] then p.creators.take 15
  else if p.authors ≠ "" then (parseAuthors p.authors).take 15
  else []

/-- Modelled from the spec: the original
`ZoteroConnector._convert_to_zotero_format` (not among the available
sources), to which `patched_convert_to_zotero_format` delegates string-format
author input.  Per §4.2/§4.3 it builds the same canonical field set with the
parsed, capped creator list and the same falsy-field omission. -/
def originalConvert (today : String) (p : PaperInfo) : List (String × Value) :=
  buildRecord today p ((parseAuthors p.authors).take 15)

/-- `patched_convert_to_zotero_format` (trace_url.py lines 51–123):
a non-empty `creators` list is used directly, truncated to 15; otherwise a
non-empty `authors` string is delegated to the original converter; otherwise
the record is built with no creators.  `today` stands for
`time.strftime('%Y-%m-%d')`. -/
def convertPatched (today : String) (p : PaperInfo) : List (String × Value) :=
  if p.creators ≠ [] then buildRecord today p (p.creators.take 15)
  else if p.authors ≠ "" then originalConvert today p
  else buildRecord today p []

/-- The guard of the trace pipeline (trace_url.py line 160):
`if not metadata or 'error' in metadata: return` — a result carrying an
`error` key is never handed to the converter. -/
def tracePipeline (today : String) (p : PaperInfo) : Option (List (String × Value)) :=
  if p.error.isSome then none else some (convertPatched today p)

/-- Presentation-layer title resolution
(`mcp_server.py` line 870, also line 865 of `debug_title_issue.py`):
`result.get('title') or paper_title or '标题提取中...'`. -/
def resolveDisplayTitle (resultTitle fallbackTitle : String) : String :=
  if resultTitle ≠ "" then resultTitle
  else if fallbackTitle ≠ "" then fallbackTitle
  else "标题提取中..."

/-- Key lookup in a record, `record[k]` as an `Option`. -/
def getField (k : String) (r : List (String × Value)) : Option Value :=
  (r.find? (fun kv => kv.1 == k)).map Prod.snd

/-! ## Helper lemmas -/

lemma word_not_space {c : Char} (h : isPyWord c = true) : isPySpace c = false := by
  by_contra hc
  rw [Bool.not_eq_false] at hc
  simp only [isPySpace, Bool.or_eq_true, beq_iff_eq] at hc
  rcases hc with ((((hc | hc) | hc) | hc) | hc) | hc <;> subst hc <;>
    exact absurd h (by decide)

lemma digit_not_space {c : Char} (h : isPyDigit c = true) : isPySpace c = false := by
  by_contra hc
  rw [Bool.not_eq_false] at hc
  simp only [isPySpace, Bool.or_eq_true, beq_iff_eq] at hc
  rcases hc with ((((hc | hc) | hc) | hc) | hc) | hc <;> subst hc <;>
    exact absurd h (by decide)

lemma getField_filter_cons_ne {q : String × Value → Bool} {k : String}
    {e : String × Value} {l : List (String × Value)} (h : e.1 ≠ k) :
    getField k (List.filter q (e :: l)) = getField k (List.filter q l) := by
  rw [List.filter_cons]
  split
  · unfold getField
    rw [List.find?_cons_of_neg]
    simpa using h
  · rfl

lemma getField_filter_cons_self {q : String × Value → Bool} {k : String} {v : Value}
    {l : List (String × Value)} :
    getField k (List.filter q ((k, v) :: l)) =
      if q (k, v) then some v else getField k (List.filter q l) := by
  by_cases hq : q (k, v) = true
  · rw [List.filter_cons, if_pos hq, if_pos hq]
    unfold getField
    rw [List.find?_cons_of_pos]
    · rfl
    · simp
  · rw [List.filter_cons, if_neg hq, if_neg hq]

lemma getField_filter_of_not_mem {q : String × Value → Bool} {k : String}
    {l : List (String × Value)} (h : ∀ e ∈ l, e.1 ≠ k) :
    getField k (List.filter q l) = none := by
  induction l with
  | nil => rfl
  | cons e t ih =>
    rw [getField_filter_cons_ne (h e (by simp))]
    exact ih (fun e' he' => h e' (by simp [he']))

lemma getField_buildRecord_itemType (today : String) (p : PaperInfo) (cs : List Creator) :
    getField "itemType" (buildRecord today p cs) =
      if itemTypeOf p = "" then none else some (Value.str (itemTypeOf p)) := by
  unfold buildRecord
  rw [getField_filter_cons_self]
  by_cases h : itemTypeOf p = ""
  · rw [if_pos h, if_neg (by simp [Value.isFalsy, h])]
    apply getField_filter_of_not_mem
    intro e he
    simp only [List.mem_cons, List.not_mem_nil, or_false] at he
    rcases he with rfl | rfl | rfl | rfl | rfl | rfl | rfl | rfl | rfl <;> simp
  · rw [if_neg h, if_pos (by simp [Value.isFalsy, h])]

lemma getField_buildRecord_title (today : String) (p : PaperInfo) (cs : List Creator) :
    getField "title" (buildRecord today p cs) =
      if p.title = "" then none else some (Value.str p.title) := by
  unfold buildRecord
  rw [getField_filter_cons_ne (by simp), getField_filter_cons_self]
  by_cases h : p.title = ""
  · rw [if_pos h, if_neg (by simp [Value.isFalsy, h])]
    apply getField_filter_of_not_mem
    intro e he
    simp only [List.mem_cons, List.not_mem_nil, or_false] at he
    rcases he with rfl | rfl | rfl | rfl | rfl | rfl | rfl | rfl <;> simp
  · rw [if_neg h, if_pos (by simp [Value.isFalsy, h])]

lemma getField_buildRecord_creators (today : String) (p : PaperInfo) (cs : List Creator) :
    getField "creators" (buildRecord today p cs) =
      if cs.isEmpty then none else some (Value.creators cs) := by
  unfold buildRecord
  rw [getField_filter_cons_ne (by simp), getField_filter_cons_ne (by simp),
    getField_filter_cons_self]
  by_cases h : cs.isEmpty = true
  · rw [if_pos h, if_neg (by simp [Value.isFalsy, h])]
    apply getField_filter_of_not_mem
    intro e he
    simp only [List.mem_cons, List.not_mem_nil, or_false] at he
    rcases he with rfl | rfl | rfl | rfl | rfl | rfl | rfl <;> simp
  · rw [if_neg h, if_pos (by simp [Value.isFalsy, h])]

lemma convertPatched_eq (today : String) (p : PaperInfo) :
    convertPatched today p = buildRecord today p (buildCreators p) := by
  unfold convertPatched originalConvert buildCreators
  split_ifs <;> rfl

lemma mem_buildRecord_not_falsy {today : String} {p : PaperInfo} {cs : List Creator}
    {kv : String × Value} (h : kv ∈ buildRecord today p cs) : kv.2.isFalsy = false := by
  unfold buildRecord at h
  have := List.of_mem_filter h
  simpa using this

/-! ## Claim theorems -/

/-- C1: for every raw result whose `creators` field is a non-empty list, the
creator builder uses that list directly, truncated to at most 15 entries with
content and order unchanged, and any `authors` string in the same result is
ignored entirely (changing it does not change the output). -/
theorem creators_branch_direct (today : String) (p : PaperInfo) (a : String)
    (h : p.creators ≠ []) :
    getField "creators" (convertPatched today p) =
      some (Value.creators (p.creators.take 15)) ∧
    convertPatched today { p with authors := a } = convertPatched today p := by
  constructor
  · rw [convertPatched_eq, getField_buildRecord_creators]
    have hb : buildCreators p = p.creators.take 15 := by
      unfold buildCreators; rw [if_pos h]
    have hne : p.creators.take 15 ≠ [] := by
      rcases hcs : p.creators with _ | ⟨c, t⟩
      · exact absurd hcs h
      · simp
    rw [hb, if_neg (by simpa using hne)]
  · unfold convertPatched
    rw [if_pos h, if_pos h]
    rfl

theorem creators_branch_direct_witness :
    getField "creators" (convertPatched "2025-10-12"
      { title := "T", authors := "A B", creators := [⟨"author", "Jane", "Doe"⟩] }) =
      some (Value.creators [⟨"author", "Jane", "Doe"⟩]) ∧
    convertPatched "2025-10-12"
      { title := "T", authors := "ignored", creators := [⟨"author", "Jane", "Doe"⟩] } =
    convertPatched "2025-10-12"
      { title := "T", authors := "A B", creators := [⟨"author", "Jane", "Doe"⟩] } := by
  have h := creators_branch_direct "2025-10-12"
    { title := "T", authors := "A B", creators := [⟨"author", "Jane", "Doe"⟩] }
    "ignored" (by simp)
  exact ⟨h.1.trans (by decide), h.2⟩

/-- C3: the record returned by the normalizer never contains a key whose value
is falsy (empty string, empty collection): every falsy-valued field is omitted
by the final comprehension before the record is returned. -/
theorem normalize_no_falsy_fields (today : String) (p : PaperInfo)
    (kv : String × Value) (h : kv ∈ convertPatched today p) :
    kv.2.isFalsy = false := by
  rw [convertPatched_eq] at h
  exact mem_buildRecord_not_falsy h

theorem normalize_no_falsy_fields_witness :
    ("itemType", Value.str "journalArticle") ∈ convertPatched "2025-10-12" {} ∧
    (Value.str "journalArticle").isFalsy = false :=
  ⟨by decide, normalize_no_falsy_fields "2025-10-12" {}
    ("itemType", Value.str "journalArticle") (by decide)⟩

/-- C4 counterexample: on a raw result carrying `error = "timeout"` the
converter itself does not pass the result through unchanged — it drops the
`error` annotation and fabricates canonical-record fields (`itemType`,
`accessDate`). -/
theorem normalizer_on_error_counterexample :
    getField "error" (convertPatched "2025-10-12" { error := some "timeout" }) = none ∧
    getField "itemType" (convertPatched "2025-10-12" { error := some "timeout" }) =
      some (Value.str "journalArticle") ∧
    getField "accessDate" (convertPatched "2025-10-12" { error := some "timeout" }) =
      some (Value.str "2025-10-12") := by
  decide

/-- C4 (amended): a raw result carrying an `error` field is rejected before
normalization — the pipeline's guard returns without invoking the converter,
so no canonical-record fields are fabricated for it (and no record at all is
produced); the converter itself performs no error check. -/
theorem pipeline_refuses_errored (today : String) (p : PaperInfo) (e : String)
    (h : p.error = some e) : tracePipeline today p = none := by
  simp [tracePipeline, h]

theorem pipeline_refuses_errored_witness :
    tracePipeline "2025-10-12" { error := some "timeout" } = none :=
  pipeline_refuses_errored "2025-10-12" { error := some "timeout" } "timeout" rfl

/-- C6: date normalization is the identity on every date string that neither
matches the day/month-name/year search pattern nor is a bare four-digit year:
already-canonical and ISO-like dates pass through character-for-character, and
a string matching no rule is retained unchanged (the function is total, so it
never raises, and it never fabricates a date). -/
theorem date_passthrough_identity (s : String)
    (h1 : searchDMYAux s.data = none) (h3 : fourDigitsAnchored s.data = false) :
    normalizeDate s = s := by
  unfold normalizeDate
  simp only [h1, h3, Bool.false_eq_true, if_false, ite_self]

theorem date_passthrough_identity_witness :
    searchDMYAux ("2025-09-21" : String).data = none ∧
    fourDigitsAnchored ("2025-09-21" : String).data = false ∧
    normalizeDate "2025-09-21" = "2025-09-21" :=
  ⟨by decide, by decide, date_passthrough_identity "2025-09-21" (by decide) (by decide)⟩

/-- C7: for every raw result whose url contains the arXiv domain marker, the
normalized record has itemType `preprint`, regardless of every other signal
(`repository`, `itemType` hint). -/
theorem arxiv_url_forces_preprint (today : String) (p : PaperInfo)
    (h : containsSub p.url "arxiv.org" = true) :
    getField "itemType" (convertPatched today p) = some (Value.str "preprint") := by
  rw [convertPatched_eq, getField_buildRecord_itemType]
  have hit : itemTypeOf p = "preprint" := by unfold itemTypeOf; rw [if_pos h]
  rw [hit, if_neg (by decide)]

theorem arxiv_url_forces_preprint_witness :
    containsSub "https://arxiv.org/abs/2301.00001" "arxiv.org" = true ∧
    getField "itemType" (convertPatched "2025-10-12"
      { title := "X", url := "https://arxiv.org/abs/2301.00001",
        itemType := some "journalArticle", repository := "" }) =
      some (Value.str "preprint") :=
  ⟨by decide, arxiv_url_forces_preprint "2025-10-12"
    { title := "X", url := "https://arxiv.org/abs/2301.00001",
      itemType := some "journalArticle", repository := "" } (by decide)⟩

/-! ## Day/month-name/year pattern: exact match on structured input -/

lemma matchTailDMY_exact (mo y : List Char) (hmo0 : mo ≠ [])
    (hmoW : ∀ c ∈ mo, isPyWord c = true) (hy4 : y.length = 4)
    (hyD : ∀ c ∈ y, isPyDigit c = true) :
    matchTailDMY (' ' :: (mo ++ ' ' :: y)) = some (mo, y) := by
  rcases mo with _ | ⟨m0, mo'⟩
  · exact absurd rfl hmo0
  rcases y with _ | ⟨a, y⟩
  · simp at hy4
  rcases y with _ | ⟨b, y⟩
  · simp at hy4
  rcases y with _ | ⟨c, y⟩
  · simp at hy4
  rcases y with _ | ⟨d, y⟩
  · simp at hy4
  rcases y with _ | ⟨e, y⟩
  case cons.cons.cons.cons.cons.cons =>
    simp only [List.length_cons] at hy4
    omega
  have hm0 : isPyWord m0 = true := hmoW m0 (by simp)
  have hm0s : isPySpace m0 = false := word_not_space hm0
  have haD : isPyDigit a = true := hyD a (by simp)
  have hbD : isPyDigit b = true := hyD b (by simp)
  have hcD : isPyDigit c = true := hyD c (by simp)
  have hdD : isPyDigit d = true := hyD d (by simp)
  have haS : isPySpace a = false := digit_not_space haD
  have e1 : (' ' :: (m0 :: (mo' ++ ' ' :: [a, b, c, d]))).takeWhile isPySpace = [' '] := by
    rw [List.takeWhile_cons_of_pos (by decide), List.takeWhile_cons_of_neg (by simp [hm0s])]
  have e2 : (' ' :: (m0 :: (mo' ++ ' ' :: [a, b, c, d]))).dropWhile isPySpace =
      m0 :: (mo' ++ ' ' :: [a, b, c, d]) := by
    rw [List.dropWhile_cons_of_pos (by decide), List.dropWhile_cons_of_neg (by simp [hm0s])]
  have e3 : (m0 :: (mo' ++ ' ' :: [a, b, c, d])).takeWhile isPyWord = m0 :: mo' := by
    rw [← List.cons_append, List.takeWhile_append_of_pos hmoW,
      List.takeWhile_cons_of_neg (by decide), List.append_nil]
  have e4 : (m0 :: (mo' ++ ' ' :: [a, b, c, d])).dropWhile isPyWord = ' ' :: [a, b, c, d] := by
    rw [← List.cons_append, List.dropWhile_append_of_pos hmoW,
      List.dropWhile_cons_of_neg (by decide)]
  have e5 : (' ' :: [a, b, c, d]).takeWhile isPySpace = [' '] := by
    rw [List.takeWhile_cons_of_pos (by decide), List.takeWhile_cons_of_neg (by simp [haS])]
  have e6 : (' ' :: [a, b, c, d]).dropWhile isPySpace = [a, b, c, d] := by
    rw [List.dropWhile_cons_of_pos (by decide), List.dropWhile_cons_of_neg (by simp [haS])]
  simp only [matchTailDMY, List.cons_append, e1, e2, e3, e4, e5, e6]
  simp [haD, hbD, hcD, hdD]

lemma searchDMYAux_exact (dday mo y : List Char) (hd0 : dday ≠ [])
    (hd2 : dday.length ≤ 2) (hdD : ∀ c ∈ dday, isPyDigit c = true)
    (hmo0 : mo ≠ []) (hmoW : ∀ c ∈ mo, isPyWord c = true)
    (hy4 : y.length = 4) (hyD : ∀ c ∈ y, isPyDigit c = true) :
    searchDMYAux (dday ++ ' ' :: (mo ++ ' ' :: y)) = some (dday, mo, y) := by
  have hmt := matchTailDMY_exact mo y hmo0 hmoW hy4 hyD
  rcases dday with _ | ⟨c1, _ | ⟨c2, t⟩⟩
  · exact absurd rfl hd0
  · have hc1 : isPyDigit c1 = true := hdD c1 (by simp)
    have hsp : isPyDigit ' ' = false := by decide
    simp only [List.cons_append, List.nil_append, searchDMYAux, hc1, if_true]
    simp [hmt, hsp]
  · have ht : t = [] := by
      simp only [List.length_cons] at hd2
      have := List.eq_nil_of_length_eq_zero (by omega : t.length = 0)
      exact this
    subst ht
    have hc1 : isPyDigit c1 = true := hdD c1 (by simp)
    have hc2 : isPyDigit c2 = true := hdD c2 (by simp)
    simp only [List.cons_append, List.nil_append, searchDMYAux, hc1, hc2, if_true]
    simp [hmt, hc2]

/-- C2 counterexample: the month table is matched case-sensitively, not
case-insensitively — the lowercase month name `sep` is not found, so the
default month `01` is emitted instead of `09`. -/
theorem month_lookup_case_counterexample :
    normalizeDate "21 sep 2025" = "2025-01-21" ∧
    normalizeDate "21 sep 2025" ≠ "2025-09-21" := by
  decide

/-- C2 (amended): for every date string of the form
`<day> <Month-name> <year>` (1–2 digit day, word-character month name,
4-digit year), normalization converts the month name to a two-digit month by
a case-sensitive lookup of its first three characters in the capitalized
three-letter abbreviation table (unknown names defaulting to `01`),
zero-pads the day, and emits `YYYY-MM-DD`. -/
theorem date_dmy_normalization_amended (dday mo y : List Char) (hd0 : dday ≠ [])
    (hd2 : dday.length ≤ 2) (hdD : ∀ c ∈ dday, isPyDigit c = true)
    (hmo0 : mo ≠ []) (hmoW : ∀ c ∈ mo, isPyWord c = true)
    (hy4 : y.length = 4) (hyD : ∀ c ∈ y, isPyDigit c = true) :
    normalizeDate (String.mk (dday ++ ' ' :: (mo ++ ' ' :: y))) =
      String.mk y ++ "-" ++ monthLookup mo ++ "-" ++ zfill2 (String.mk dday) := by
  have hdat : (String.mk (dday ++ ' ' :: (mo ++ ' ' :: y))).data =
      dday ++ ' ' :: (mo ++ ' ' :: y) := rfl
  have hne : String.mk (dday ++ ' ' :: (mo ++ ' ' :: y)) ≠ "" := by
    intro h
    have hl : dday ++ ' ' :: (mo ++ ' ' :: y) = [] := congrArg String.data h
    rcases dday with _ | ⟨c1, t⟩
    · simp at hl
    · simp at hl
  have hnu : String.mk (dday ++ ' ' :: (mo ++ ' ' :: y)) ≠ "未知日期" := by
    intro h
    have hl : dday ++ ' ' :: (mo ++ ' ' :: y) = ['未', '知', '日', '期'] :=
      congrArg String.data h
    rcases dday with _ | ⟨c1, t⟩
    · exact hd0 rfl
    · rw [List.cons_append] at hl
      injection hl with hc hrest
      subst hc
      exact absurd (hdD '未' (by simp)) (by decide)
  unfold normalizeDate
  rw [if_pos ⟨hne, hnu⟩, hdat,
    searchDMYAux_exact dday mo y hd0 hd2 hdD hmo0 hmoW hy4 hyD]

theorem date_dmy_normalization_amended_witness :
    normalizeDate (String.mk (['2', '1'] ++ ' ' :: (['S', 'e', 'p'] ++ ' ' :: ['2', '0', '2', '5']))) =
      String.mk ['2', '0', '2', '5'] ++ "-" ++ monthLookup ['S', 'e', 'p'] ++ "-" ++
        zfill2 (String.mk ['2', '1']) ∧
    normalizeDate "21 Sep 2025" = "2025-09-21" :=
  ⟨date_dmy_normalization_amended ['2', '1'] ['S', 'e', 'p'] ['2', '0', '2', '5']
    (by decide) (by decide) (by decide) (by decide) (by decide) (by decide) (by decide),
   by decide⟩

/-- C5: title resolution is first-non-empty — at the presentation layer the
extractor-supplied title wins over the externally-supplied fallback — and the
placeholder sentinel appears only there: the converter writes the raw title
into the record unchanged when non-empty, omits it when empty (the record's
omitted-means-empty convention), and never substitutes the sentinel. -/
theorem title_resolution (today : String) (p : PaperInfo) (fb : String) :
    (p.title ≠ "" → resolveDisplayTitle p.title fb = p.title) ∧
    (p.title ≠ "" → getField "title" (convertPatched today p) = some (Value.str p.title)) ∧
    (p.title = "" → getField "title" (convertPatched today p) = none) ∧
    (p.title ≠ "标题提取中..." →
      getField "title" (convertPatched today p) ≠ some (Value.str "标题提取中...")) := by
  have hgt : getField "title" (convertPatched today p) =
      if p.title = "" then none else some (Value.str p.title) := by
    rw [convertPatched_eq, getField_buildRecord_title]
  refine ⟨?_, ?_, ?_, ?_⟩
  · intro h
    unfold resolveDisplayTitle
    rw [if_pos h]
  · intro h
    rw [hgt, if_neg h]
  · intro h
    rw [hgt, if_pos h]
  · intro h hc
    rw [hgt] at hc
    by_cases h0 : p.title = ""
    · rw [if_pos h0] at hc
      exact Option.noConfusion hc
    · rw [if_neg h0] at hc
      simp only [Option.some.injEq, Value.str.injEq] at hc
      exact h hc

theorem title_resolution_witness :
    resolveDisplayTitle "Real Title" "Fallback" = "Real Title" ∧
    getField "title" (convertPatched "2025-10-12" { title := "Real Title" }) =
      some (Value.str "Real Title") ∧
    getField "title" (convertPatched "2025-10-12" { title := "" }) = none ∧
    getField "title" (convertPatched "2025-10-12" { title := "Real Title" }) ≠
      some (Value.str "标题提取中...") := by
  have h1 := title_resolution "2025-10-12" { title := "Real Title" } "Fallback"
  have h2 := title_resolution "2025-10-12" { title := "" } "Fallback"
  exact ⟨h1.1 (by decide), h1.2.1 (by decide), h2.2.2.1 rfl, h1.2.2.2 (by decide)⟩

/-- C8: free-text author parsing (no structured creators) splits on `;` when
present, otherwise on `,` plus the literal word `and` and `&`; each trimmed
name token with two or more words yields a creator whose lastName is the last
word and whose firstName is the preceding words joined by spaces, a
single-word token yielding a bare lastName; in particular
`"Jane A. Doe, John Smith"` yields exactly the two creators
`(Jane A., Doe)` and `(John, Smith)` in input order. -/
theorem author_parsing_spec :
    (∀ t w, splitWords t = [w] → parseName t = some ⟨"author", "", w⟩) ∧
    (∀ t w₁ w₂ ws, splitWords t = w₁ :: w₂ :: ws →
      parseName t = some ⟨"author", String.intercalate " " ((w₁ :: w₂ :: ws).dropLast),
        (w₁ :: w₂ :: ws).getLast (by simp)⟩) ∧
    parseAuthors "Jane A. Doe, John Smith" =
      [⟨"author", "Jane A.", "Doe"⟩, ⟨"author", "John", "Smith"⟩] := by
  refine ⟨?_, ?_, ?_⟩
  · intro t w h
    unfold parseName
    rw [h]
  · intro t w₁ w₂ ws h
    unfold parseName
    rw [h]
  · decide

theorem author_parsing_spec_witness :
    splitWords "Doe" = ["Doe"] ∧
    parseName "Doe" = some ⟨"author", "", "Doe"⟩ ∧
    splitWords "Jane A. Doe" = ["Jane", "A.", "Doe"] ∧
    parseName "Jane A. Doe" = some ⟨"author", "Jane A.", "Doe"⟩ := by
  refine ⟨by decide, author_parsing_spec.1 "Doe" "Doe" (by decide), by decide, ?_⟩
  have h := author_parsing_spec.2.1 "Jane A. Doe" "Jane" "A." ["Doe"] (by decide)
  exact h.trans (by decide)

/-! ## Extractor dispatcher (modelled from the spec) and BioRxiv extractor -/

/-- Python `url.lower()` on the ASCII range. -/
def lowerStr (s : String) : String := String.mk (s.data.map Char.toLower)

/-- Modelled from the spec: the ordered registry of site-specific extractors
of the Dispatcher (`ExtractorManager`, not among the available sources),
identified by their domain markers.  The site families are the preprint
servers named by the spec (§4.2) and exercised by the repository's test
scripts; the generic browser-driven fallback is outside the registry (it is
invoked only when no registered extractor matches). -/
def registeredExtractors : List String :=
  ["biorxiv.org", "medrxiv.org", "chemrxiv.org", "arxiv.org"]

/-- Modelled from the spec: `can_handle` of the registered extractor with
domain marker `marker` — a substring check against the lowercased URL, the
shape of the one `can_handle` present in the sources
(`BioRxivDirectExtractor.can_handle`, biorxiv_direct_extractor.py line 34). -/
def canHandle (marker url : String) : Bool := containsSub (lowerStr url) marker

/-- Modelled from the spec: first-match dispatch — the first registered
extractor whose `can_handle` accepts the URL owns it (§4.1). -/
def dispatchFirst (url : String) : Option String :=
  registeredExtractors.find? (fun m => canHandle m url)

/-- C9 counterexample: registered `can_handle` checks are plain substring
tests, so a URL that embeds a second registered domain marker (for example in
its query string) is accepted by two registered extractors at once — mutual
exclusivity fails, although the dispatcher still picks the first match. -/
theorem can_handle_overlap_counterexample :
    ("biorxiv.org" : String) ∈ registeredExtractors ∧
    ("arxiv.org" : String) ∈ registeredExtractors ∧
    ("biorxiv.org" : String) ≠ "arxiv.org" ∧
    canHandle "biorxiv.org" "https://www.biorxiv.org/content/x?from=arxiv.org" = true ∧
    canHandle "arxiv.org" "https://www.biorxiv.org/content/x?from=arxiv.org" = true ∧
    dispatchFirst "https://www.biorxiv.org/content/x?from=arxiv.org" = some "biorxiv.org" := by
  decide

/-- C9 (amended): for every URL accepted by exactly one registered
extractor's `can_handle` (every other registered check returning false), the
dispatcher selects exactly that extractor — the first in priority order whose
`can_handle` returns true; URLs embedding several registered domain markers
defeat mutual exclusivity because the checks are substring-based. -/
theorem dispatch_single_marker_amended (url m : String)
    (hm : m ∈ registeredExtractors) (hc : canHandle m url = true)
    (hothers : ∀ m' ∈ registeredExtractors, m' ≠ m → canHandle m' url = false) :
    dispatchFirst url = some m := by
  simp only [registeredExtractors, List.mem_cons, List.not_mem_nil, or_false] at hm
  rcases hm with rfl | rfl | rfl | rfl
  · simp [dispatchFirst, registeredExtractors, List.find?, hc]
  · have h1 := hothers "biorxiv.org" (by simp [registeredExtractors]) (by decide)
    simp [dispatchFirst, registeredExtractors, List.find?, hc, h1]
  · have h1 := hothers "biorxiv.org" (by simp [registeredExtractors]) (by decide)
    have h2 := hothers "medrxiv.org" (by simp [registeredExtractors]) (by decide)
    simp [dispatchFirst, registeredExtractors, List.find?, hc, h1, h2]
  · have h1 := hothers "biorxiv.org" (by simp [registeredExtractors]) (by decide)
    have h2 := hothers "medrxiv.org" (by simp [registeredExtractors]) (by decide)
    have h3 := hothers "chemrxiv.org" (by simp [registeredExtractors]) (by decide)
    simp [dispatchFirst, registeredExtractors, List.find?, hc, h1, h2, h3]

theorem dispatch_single_marker_amended_witness :
    dispatchFirst "https://www.biorxiv.org/content/10.1101/2024.01.01.000001v1" =
      some "biorxiv.org" :=
  dispatch_single_marker_amended
    "https://www.biorxiv.org/content/10.1101/2024.01.01.000001v1" "biorxiv.org"
    (by decide) (by decide) (by decide)

/-- Result of running a piece of Python code that may raise: either a normal
return value or an uncaught exception. -/
inductive PyResult (α : Type) where
  | ok (a : α)
  | exn (msg : String)
deriving DecidableEq, Repr

namespace BioRxivDirectExtractor

/-- `BioRxivDirectExtractor.can_handle` (biorxiv_direct_extractor.py
lines 32–34): `'biorxiv.org' in url.lower()`. -/
def can_handle (url : String) : Bool := containsSub (lowerStr url) "biorxiv.org"

/-- Anchored match of `10\.1101/(\d{4})\.(\d{2})\.(\d{2})\.(\d+)` at the head
of the list; the final `\d+` is greedy with nothing after it, hence the
maximal digit run. Returns the groups `(year, month, day, version)`. -/
def matchDOIAt : List Char → Option (List Char × List Char × List Char × List Char)
  | '1' :: '0' :: '.' :: '1' :: '1' :: '0' :: '1' :: '/' ::
      y1 :: y2 :: y3 :: y4 :: '.' :: m1 :: m2 :: '.' :: d1 :: d2 :: '.' :: vrest =>
    if (isPyDigit y1 && isPyDigit y2 && isPyDigit y3 && isPyDigit y4) &&
       (isPyDigit m1 && isPyDigit m2) && (isPyDigit d1 && isPyDigit d2) then
      match vrest.takeWhile isPyDigit with
      | [] => none
      | v => some ([y1, y2, y3, y4], [m1, m2], [d1, d2], v)
    else none
  | _ => none

/-- `re.search(r'10\.1101/(\d{4})\.(\d{2})\.(\d{2})\.(\d+)', url)`:
leftmost match, scanning start positions left to right. -/
def searchDOIAux : List Char → Option (List Char × List Char × List Char × List Char)
  | [] => none
  | c :: rest =>
    match matchDOIAt (c :: rest) with
    | some r => some r
    | none => searchDOIAux rest

/-- `BioRxivDirectExtractor._extract_from_url` (biorxiv_direct_extractor.py
lines 58–85): either the error record `{"error": ...}` when no DOI is found
in the URL, or the full metadata record. -/
def extractFromUrl (url : String) : List (String × Value) :=
  match searchDOIAux url.data with
  | none => [("error", Value.str "无法从URL提取DOI")]
  | some (y, m, d, v) =>
    let paperId := String.mk y ++ "." ++ String.mk m ++ "." ++ String.mk d ++ "." ++ String.mk v
    [("itemType", Value.str "preprint"),
     ("title", Value.str ("bioRxiv preprint " ++ paperId)),
     ("creators", Value.creators [⟨"author", "Unknown", "Author"⟩]),
     ("abstractNote", Value.str "bioRxiv preprint - PDF auto-downloaded"),
     ("url", Value.str url),
     ("DOI", Value.str ("10.1101/" ++ paperId)),
     ("repository", Value.str "bioRxiv"),
     ("archiveID", Value.str paperId),
     ("date", Value.str (String.mk y ++ "-" ++ String.mk m ++ "-" ++ String.mk d)),
     ("libraryCatalog", Value.str "bioRxiv"),
     ("pdf_url", Value.str ("https://www.biorxiv.org/content/10.1101/" ++ paperId ++ ".full.pdf")),
     ("extractor", Value.str "BioRxiv-Direct")]

/-- `BioRxivDirectExtractor.extract_metadata` (biorxiv_direct_extractor.py
lines 36–56).  The PDF download (`_download_pdf_content`, browser I/O) is an
external collaborator and is passed as an oracle returning the bytes or
`none` on failure.  The subscript `basic_info['pdf_url']` on line 47 raises
`KeyError` when the key is absent, which the method does not guard. -/
def extract_metadata (download : String → Option (List Nat)) (url : String) :
    PyResult (List (String × Value)) :=
  if can_handle url = false then .ok []
  else
    match getField "pdf_url" (extractFromUrl url) with
    | some (Value.str pdfUrl) =>
      match download pdfUrl with
      | some content =>
        if content.isEmpty then .ok (extractFromUrl url)
        else .ok (extractFromUrl url ++
          [("pdf_content", Value.bytes content), ("pdf_size", Value.nat content.length)])
      | none => .ok (extractFromUrl url)
    | _ => .exn "KeyError: pdf_url"

end BioRxivDirectExtractor

/-- C10: `extract_metadata` is meant to return one of three shapes — the
empty record for non-bioRxiv URLs, an error-only record for bioRxiv URLs
without a parsable DOI, or a full preprint record whose DOI, date, archiveID
and pdf_url are built from the same parsed components — and never raise; but
on the error path the unguarded `basic_info['pdf_url']` subscript raises
`KeyError`, so the error-only record can never be returned. -/
theorem biorxiv_extract_shapes :
    BioRxivDirectExtractor.extract_metadata (fun _ => none) "https://example.com/paper" =
      .ok [] ∧
    BioRxivDirectExtractor.can_handle "https://www.biorxiv.org/content/early/recent" = true ∧
    BioRxivDirectExtractor.extractFromUrl "https://www.biorxiv.org/content/early/recent" =
      [("error", Value.str "无法从URL提取DOI")] ∧
    BioRxivDirectExtractor.extract_metadata (fun _ => none)
      "https://www.biorxiv.org/content/early/recent" = .exn "KeyError: pdf_url" ∧
    BioRxivDirectExtractor.extract_metadata (fun _ => none)
      "https://www.biorxiv.org/content/10.1101/2024.06.26.600822v2" = .ok
      [("itemType", Value.str "preprint"),
       ("title", Value.str "bioRxiv preprint 2024.06.26.600822"),
       ("creators", Value.creators [⟨"author", "Unknown", "Author"⟩]),
       ("abstractNote", Value.str "bioRxiv preprint - PDF auto-downloaded"),
       ("url", Value.str "https://www.biorxiv.org/content/10.1101/2024.06.26.600822v2"),
       ("DOI", Value.str "10.1101/2024.06.26.600822"),
       ("repository", Value.str "bioRxiv"),
       ("archiveID", Value.str "2024.06.26.600822"),
       ("date", Value.str "2024-06-26"),
       ("libraryCatalog", Value.str "bioRxiv"),
       ("pdf_url", Value.str "https://www.biorxiv.org/content/10.1101/2024.06.26.600822.full.pdf"),
       ("extractor", Value.str "BioRxiv-Direct")] := by
  refine ⟨by decide, by decide, by decide, by decide, by decide⟩
